import Mathlib

/-!
Verification of the in-memory mock Git client fixture (package `mock`,
file `client/interface.go` of `ocraviotto/pkg`).

The Go code is shallowly embedded: each Go map `map[string]V` becomes an
association list `List (String × V)` with first-match lookup and
replace-on-insert (at most one entry per key ever arises, matching Go map
semantics); `[]byte` becomes `List Nat` (each element a byte value);
Go `error` results become `Option GoError` (`none` = nil error);
`testing.T` assertion methods become `Bool`-valued functions that return
`true` exactly when the Go method returns without calling `t.Fatalf`.
`crypto/sha1` (the Go standard library hash used by `bytesSha1`) is
embedded as an executable implementation of FIPS 180-1 SHA-1 over byte
lists, with 32-bit arithmetic carried out on `Nat` modulo `2 ^ 32`.
-/

/-- Byte strings are lists of byte values (each `< 256` by construction). -/
abbrev Bytes := List Nat

/-- Reduce to a 32-bit word, as Go's `uint32` arithmetic does. -/
def w32 (n : Nat) : Nat := n % 4294967296

/-- Rotate a 32-bit word left by `k` bits. -/
def rotl (k n : Nat) : Nat :=
  w32 (Nat.lor (Nat.shiftLeft n k) (Nat.shiftRight n (32 - k)))

/-- Big-endian decomposition of a 32-bit word into four bytes. -/
def wordBytes (w : Nat) : Bytes :=
  [w / 16777216 % 256, w / 65536 % 256, w / 256 % 256, w % 256]

/-- Group bytes into 32-bit big-endian words (SHA-1 block schedule input). -/
def bytesToWords : Bytes → List Nat
  | b0 :: b1 :: b2 :: b3 :: rest =>
      (b0 * 16777216 + b1 * 65536 + b2 * 256 + b3) :: bytesToWords rest
  | _ => []

/-- Big-endian 64-bit encoding of the message bit length, as SHA-1 padding requires. -/
def lenBytes (l : Nat) : Bytes :=
  let b := 8 * l
  [b / 72057594037927936 % 256, b / 281474976710656 % 256,
   b / 1099511627776 % 256, b / 4294967296 % 256,
   b / 16777216 % 256, b / 65536 % 256, b / 256 % 256, b % 256]

/-- SHA-1 padding: append `0x80`, zero bytes to 56 mod 64, then the bit length. -/
def padMessage (msg : Bytes) : Bytes :=
  msg ++ [128] ++ List.replicate ((119 - msg.length % 64) % 64) 0 ++ lenBytes msg.length

/-- Split a byte list into 64-byte chunks, with fuel bounding the recursion depth
(each chunk consumes at least one byte, so `l.length` fuel always suffices). -/
def chunksAux : Nat → Bytes → List Bytes
  | _, [] => []
  | 0, _ :: _ => []
  | fuel + 1, x :: xs => (x :: xs.take 63) :: chunksAux fuel (xs.drop 63)

/-- Split a byte list into 64-byte chunks. -/
def chunks64 (l : Bytes) : List Bytes := chunksAux l.length l

/-- Extend 16 schedule words to 80, per SHA-1's message schedule recurrence. -/
def extendWords (ws : List Nat) : List Nat :=
  (List.range 64).foldl
    (fun acc j =>
      acc ++ [rotl 1 (Nat.xor (Nat.xor (acc.getD (j + 13) 0) (acc.getD (j + 8) 0))
                              (Nat.xor (acc.getD (j + 2) 0) (acc.getD j 0)))])
    ws

/-- One SHA-1 round: state is `(a, b, c, d, e)`, `i` the round index, `wi` the schedule word. -/
def sha1Round (st : Nat × Nat × Nat × Nat × Nat) (i wi : Nat) : Nat × Nat × Nat × Nat × Nat :=
  let a := st.1
  let b := st.2.1
  let c := st.2.2.1
  let d := st.2.2.2.1
  let e := st.2.2.2.2
  let f :=
    if i < 20 then Nat.lor (Nat.land b c) (Nat.land (Nat.xor b 4294967295) d)
    else if i < 40 then Nat.xor (Nat.xor b c) d
    else if i < 60 then Nat.lor (Nat.lor (Nat.land b c) (Nat.land b d)) (Nat.land c d)
    else Nat.xor (Nat.xor b c) d
  let k :=
    if i < 20 then 1518500249
    else if i < 40 then 1859775393
    else if i < 60 then 2400959708
    else 3395469782
  (w32 (rotl 5 a + f + e + k + wi), a, rotl 30 b, c, d)

/-- Process one 64-byte chunk, updating the five-word hash state. -/
def processChunk (h : Nat × Nat × Nat × Nat × Nat) (chunk : Bytes) : Nat × Nat × Nat × Nat × Nat :=
  let ws := extendWords (bytesToWords chunk)
  let r := (List.range 80).foldl (fun st i => sha1Round st i (ws.getD i 0)) h
  (w32 (h.1 + r.1), w32 (h.2.1 + r.2.1), w32 (h.2.2.1 + r.2.2.1),
   w32 (h.2.2.2.1 + r.2.2.2.1), w32 (h.2.2.2.2 + r.2.2.2.2))

/-- The SHA-1 initial hash state. -/
def sha1Init : Nat × Nat × Nat × Nat × Nat :=
  (1732584193, 4023233417, 2562383102, 271733878, 3285377520)

/-- The 20-byte SHA-1 digest of a byte string (FIPS 180-1, as `crypto/sha1` computes). -/
def sha1Digest (msg : Bytes) : Bytes :=
  let h := (chunks64 (padMessage msg)).foldl processChunk sha1Init
  wordBytes h.1 ++ wordBytes h.2.1 ++ wordBytes h.2.2.1 ++
    wordBytes h.2.2.2.1 ++ wordBytes h.2.2.2.2

/-- The sixteen lowercase hexadecimal digit characters. -/
def hexDigitChars : List Char := ("0123456789abcdef").toList

/-- Lowercase hexadecimal digit for a value below 16. -/
def hexDigit (n : Nat) : Char := hexDigitChars.getD n '0'

/-- Lowercase hexadecimal character expansion of a byte string, two digits per byte. -/
def hexChars : Bytes → List Char
  | [] => []
  | b :: t => hexDigit (b / 16 % 16) :: hexDigit (b % 16) :: hexChars t

/-- `bytesSha1` (interface.go:213-218): lowercase hex of the SHA-1 digest of `b`,
Go's `fmt.Sprintf` with the `x` verb applied to `sha1`'s 20-byte sum. -/
def bytesSha1 (b : Bytes) : String := String.mk (hexChars (sha1Digest b))


/-- A Go `error` value. `notFound` models `errors.New("not found")`, `notSupported`
models `scm.ErrNotSupported`, and `msg` models any other caller-supplied error. -/
inductive GoError where
  | notFound
  | notSupported
  | msg (s : String)
deriving DecidableEq

/-- `scm.Signature` (external go-scm type): only carried through, never inspected. -/
structure Signature where
  name : String
  email : String
deriving DecidableEq

/-- `scm.PullRequestInput` (external go-scm type): an opaque record compared by
`reflect.DeepEqual`, i.e. full structural equality of its fields. -/
structure PullRequestInput where
  title : String
  body : String
  head : String
  base : String
deriving DecidableEq

/-- `scm.PullRequest` (external go-scm type): the two fields the mock populates. -/
structure PullRequest where
  number : Nat
  link : String
deriving DecidableEq

/-- `scm.Content` (external go-scm type): the two fields the mock populates. -/
structure Content where
  data : Bytes
  sha : String
deriving DecidableEq

/-- First-match lookup in an association list, as a Go string-keyed map access. -/
def mapFind {β : Type} : List (String × β) → String → Option β
  | [], _ => none
  | (k', v') :: rest, k => if k' = k then some v' else mapFind rest k

/-- Insert into an association list, replacing the entry for the key if present,
as a Go map assignment. -/
def mapInsert {β : Type} : List (String × β) → String → β → List (String × β)
  | [], k, v => [(k, v)]
  | (k', v') :: rest, k, v =>
      if k' = k then (k, v) :: rest else (k', v') :: mapInsert rest k v

/-- Number of entries of an association list carrying a given key. -/
def countKey {β : Type} (m : List (String × β)) (k : String) : Nat :=
  (m.filter (fun p => decide (p.1 = k))).length

/-- The separator `strings.Join` uses in `key`. -/
def colon : String := ":"

/-- `key` (interface.go:209-211): `strings.Join(s, ":")`. -/
def key (s : List String) : String := String.intercalate colon s

/-- `MockClient` (interface.go:49-60): the fixture's state tables and the four
settable error-injection fields (Go zero value: empty maps, nil errors). -/
structure MockClient where
  files : List (String × Bytes)
  getFileErr : Option GoError
  updatedFiles : List (String × Bytes)
  updateFileErr : Option GoError
  createdBranches : List (String × Bool)
  createBranchErr : Option GoError
  branchHeads : List (String × String)
  createdPullRequests : List (String × List PullRequestInput)
  createPullRequestErr : Option GoError
deriving DecidableEq

/-- `New` (interface.go:36-45): a fresh fixture with empty tables and no overrides. -/
def mkMockClient : MockClient :=
  { files := [], getFileErr := none, updatedFiles := [], updateFileErr := none,
    createdBranches := [], createBranchErr := none, branchHeads := [],
    createdPullRequests := [], createPullRequestErr := none }

/-- `MockClient.GetFile` (interface.go:63-71). On an injected error it returns
`&scm.Content{}` (an empty content value) alongside the error; on a hit it returns
the stored bytes with a freshly computed SHA-1; on a miss, `nil` and "not found". -/
def getFile (m : MockClient) (repo ref path : String) : Option Content × Option GoError :=
  match m.getFileErr with
  | some e => (some { data := [], sha := "" }, some e)
  | none =>
    match mapFind m.files (key [repo, path, ref]) with
    | some b => (some { data := b, sha := bytesSha1 b }, none)
    | none => (none, some GoError.notFound)

/-- `MockClient.UpdateFile` (interface.go:74-81): on an injected error returns it
untouched; otherwise unconditionally records the content under
`key(repo, path, branch)`, ignoring `previousSHA`. -/
def updateFile (m : MockClient) (repo branch path message previousSHA : String)
    (signature : Signature) (content : Bytes) : Option GoError × MockClient :=
  match m.updateFileErr with
  | some e => (some e, m)
  | none =>
      (none, { m with updatedFiles := mapInsert m.updatedFiles (key [repo, path, branch]) content })

/-- `MockClient.DeleteFile` (interface.go:84-86): always returns `scm.ErrNotSupported`
and never touches the receiver. -/
def deleteFile (m : MockClient) (repo branch path message previousSHA : String)
    (signature : Signature) (content : Bytes) : Option GoError × MockClient :=
  (some GoError.notSupported, m)

/-- `MockClient.CreatePullRequest` (interface.go:89-101): appends the input to the
repository's record, and returns the post-append length as the number together
with the templated link. -/
def createPullRequest (m : MockClient) (repo : String) (inp : PullRequestInput) :
    (Option PullRequest × Option GoError) × MockClient :=
  match m.createPullRequestErr with
  | some e => ((none, some e), m)
  | none =>
    let appended := ((mapFind m.createdPullRequests repo).getD []) ++ [inp]
    ((some { number := appended.length,
             link := "https://example.com/pull-request/" ++ toString appended.length }, none),
     { m with createdPullRequests := mapInsert m.createdPullRequests repo appended })

/-- `MockClient.CreateBranch` (interface.go:104-110): on an injected error returns it
untouched; otherwise marks `key(repo, branch, sha)` as created. -/
def createBranch (m : MockClient) (repo branch sha : String) : Option GoError × MockClient :=
  match m.createBranchErr with
  | some e => (some e, m)
  | none =>
      (none, { m with createdBranches := mapInsert m.createdBranches (key [repo, branch, sha]) true })

/-- `MockClient.GetBranchHead` (interface.go:113-119): looks up `key(repo, branch)`;
a miss yields the empty string and "not found". -/
def getBranchHead (m : MockClient) (repo branch : String) : String × Option GoError :=
  match mapFind m.branchHeads (key [repo, branch]) with
  | some ref => (ref, none)
  | none => ("", some GoError.notFound)

/-- `MockClient.AddFileContents` (interface.go:123-125): seeds the `files` table. -/
def addFileContents (m : MockClient) (repo path ref : String) (body : Bytes) : MockClient :=
  { m with files := mapInsert m.files (key [repo, path, ref]) body }

/-- `MockClient.GetUpdatedContents` (interface.go:129-132): a plain map access, so a
missing key yields the `[]byte` zero value `nil` (here `[]`). -/
def getUpdatedContents (m : MockClient) (repo path ref : String) : Bytes :=
  (mapFind m.updatedFiles (key [repo, path, ref])).getD []

/-- `MockClient.AddBranchHead` (interface.go:135-137): seeds the `branchHeads` table. -/
def addBranchHead (m : MockClient) (repo branch sha : String) : MockClient :=
  { m with branchHeads := mapInsert m.branchHeads (key [repo, branch]) sha }

/-- `MockClient.AssertBranchCreated` (interface.go:141-146): `true` iff the method
returns without `t.Fatalf`, i.e. the key is present. -/
def assertBranchCreated (m : MockClient) (repo branch sha : String) : Bool :=
  (mapFind m.createdBranches (key [repo, branch, sha])).isSome

/-- `MockClient.RefuteBranchCreated` (interface.go:150-155): `true` iff the method
returns without `t.Fatalf`, i.e. the key is absent. -/
def refuteBranchCreated (m : MockClient) (repo branch sha : String) : Bool :=
  !(mapFind m.createdBranches (key [repo, branch, sha])).isSome

/-- `MockClient.AssertPullRequestCreated` (interface.go:158-167): `true` iff some
recorded input for the repository is structurally equal to `inp`. -/
def assertPullRequestCreated (m : MockClient) (repo : String) (inp : PullRequestInput) : Bool :=
  ((mapFind m.createdPullRequests repo).getD []).any (fun pr => decide (inp = pr))

/-- `MockClient.RefutePullRequestCreated` (interface.go:170-177): `true` iff no
recorded input for the repository is structurally equal to `inp`. -/
def refutePullRequestCreated (m : MockClient) (repo : String) (inp : PullRequestInput) : Bool :=
  !((mapFind m.createdPullRequests repo).getD []).any (fun pr => decide (inp = pr))

/-- `MockClient.AssertNoBranchesCreated` (interface.go:180-185): `true` iff the
branches table is empty. -/
def assertNoBranchesCreated (m : MockClient) : Bool :=
  decide (m.createdBranches.length = 0)

/-- `MockClient.AssertNoPullRequestsCreated` (interface.go:188-192): `true` iff the
pull-request table is empty. -/
def assertNoPullRequestsCreated (m : MockClient) : Bool :=
  decide (m.createdPullRequests.length = 0)

/-- `MockClient.AssertNoInteractions` (interface.go:195-207): `true` iff all three
write-observation tables are empty. -/
def assertNoInteractions (m : MockClient) : Bool :=
  decide (m.updatedFiles.length = 0) && decide (m.createdBranches.length = 0) &&
    decide (m.createdPullRequests.length = 0)

inductive WriteOp where
  | update (repo branch path message previousSHA : String) (signature : Signature) (content : Bytes)
  | branch (repo branchName sha : String)
  | pull (repo : String) (inp : PullRequestInput)

/-- Run one mutating call, keeping only the resulting state. -/
def applyWrite (m : MockClient) : WriteOp → MockClient
  | WriteOp.update repo branch path message previousSHA signature content =>
      (updateFile m repo branch path message previousSHA signature content).2
  | WriteOp.branch repo branchName sha => (createBranch m repo branchName sha).2
  | WriteOp.pull repo inp => (createPullRequest m repo inp).2

/-- Run a sequence of mutating calls in order. -/
def applyWrites (m : MockClient) : List WriteOp → MockClient
  | [] => m
  | op :: ops => applyWrites (applyWrite m op) ops

/-- A seeding call of the fixture: `AddFileContents` or `AddBranchHead`, with its arguments. -/
inductive SeedOp where
  | file (repo path ref : String) (body : Bytes)
  | head (repo branchName sha : String)

/-- Run one seeding call. -/
def applySeed (m : MockClient) : SeedOp → MockClient
  | SeedOp.file repo path ref body => addFileContents m repo path ref body
  | SeedOp.head repo branchName sha => addBranchHead m repo branchName sha

/-- Run a sequence of seeding calls in order. -/
def applySeeds (m : MockClient) : List SeedOp → MockClient
  | [] => m
  | op :: ops => applySeeds (applySeed m op) ops

/-- Run `CreatePullRequest` once for each input in turn, collecting the returned
pull-request numbers (in call order) and the final state. -/
def runCreatePRs (m : MockClient) (repo : String) : List PullRequestInput → List Nat × MockClient
  | [] => ([], m)
  | inp :: rest =>
      let r := createPullRequest m repo inp
      let res := runCreatePRs r.2 repo rest
      ((match r.1.1 with | some pr => [pr.number] | none => []) ++ res.1, res.2)

/-- A fixture with every settable error-injection field set, used to exercise the
override paths on concrete inputs. -/
def erroringClient : MockClient :=
  { mkMockClient with getFileErr := some (GoError.msg ("getfile down")),
                      updateFileErr := some (GoError.msg ("updatefile down")),
                      createBranchErr := some (GoError.msg ("createbranch down")),
                      createPullRequestErr := some (GoError.msg ("createpullrequest down")) }

set_option maxRecDepth 100000

/-- Known-answer test: the SHA-1 of the empty message matches the published vector. -/
theorem sha1_empty_vector : bytesSha1 [] = ("da39a3ee5e6b4b0d3255bfef95601890afd80709") := by
  decide

/-- Known-answer test: the SHA-1 of the ASCII bytes of `abc` matches the published vector. -/
theorem sha1_abc_vector : bytesSha1 [97, 98, 99] = ("a9993e364706816aba3e25717850c26c9cd0d89d") := by
  decide

theorem mapFind_insert_self {β : Type} (m : List (String × β)) (k : String) (v : β) :
    mapFind (mapInsert m k v) k = some v := by
  induction m with
  | nil => simp [mapInsert, mapFind]
  | cons p rest ih =>
    obtain ⟨k', v'⟩ := p
    by_cases h : k' = k
    · simp [mapInsert, mapFind, h]
    · simp [mapInsert, mapFind, h, ih]

theorem mapFind_insert_ne {β : Type} (m : List (String × β)) (k k' : String) (v : β)
    (h : k' ≠ k) : mapFind (mapInsert m k v) k' = mapFind m k' := by
  induction m with
  | nil => simp [mapInsert, mapFind, Ne.symm h]
  | cons p rest ih =>
    obtain ⟨k0, v0⟩ := p
    by_cases h0 : k0 = k
    · subst h0
      simp [mapInsert, mapFind, Ne.symm h]
    · by_cases h1 : k0 = k'
      · simp [mapInsert, mapFind, h0, h1, h]
      · simp [mapInsert, mapFind, h0, h1, ih]

theorem mapInsert_insert_same {β : Type} (m : List (String × β)) (k : String) (v w : β) :
    mapInsert (mapInsert m k v) k w = mapInsert m k w := by
  induction m with
  | nil => simp [mapInsert]
  | cons p rest ih =>
    obtain ⟨k0, v0⟩ := p
    by_cases h : k0 = k
    · simp [mapInsert, h]
    · simp [mapInsert, h, ih]

theorem countKey_insert {β : Type} (m : List (String × β)) (k : String) (v : β) :
    countKey (mapInsert m k v) k = max 1 (countKey m k) := by
  induction m with
  | nil => simp [mapInsert, countKey]
  | cons p rest ih =>
    obtain ⟨k0, v0⟩ := p
    by_cases h : k0 = k
    · simp [mapInsert, countKey, List.filter, h]
    · simpa [mapInsert, countKey, List.filter, h] using ih

theorem mapInsert_length_pos {β : Type} (m : List (String × β)) (k : String) (v : β) :
    0 < (mapInsert m k v).length := by
  cases m with
  | nil => simp [mapInsert]
  | cons p rest =>
    obtain ⟨k0, v0⟩ := p
    by_cases h : k0 = k <;> simp [mapInsert, h]

/-- A mutating call of the fixture: `UpdateFile`, `CreateBranch` or `CreatePullRequest`,
with its arguments. -/
theorem applyWrite_preserves_reads (m : MockClient) (op : WriteOp) :
    (applyWrite m op).files = m.files ∧ (applyWrite m op).branchHeads = m.branchHeads ∧
    (applyWrite m op).getFileErr = m.getFileErr := by
  cases op with
  | update repo branch path message previousSHA signature content =>
    cases h : m.updateFileErr <;> simp [applyWrite, updateFile, h]
  | branch repo branchName sha =>
    cases h : m.createBranchErr <;> simp [applyWrite, createBranch, h]
  | pull repo inp =>
    cases h : m.createPullRequestErr <;> simp [applyWrite, createPullRequest, h]

theorem applyWrites_preserves_reads (ops : List WriteOp) (m : MockClient) :
    (applyWrites m ops).files = m.files ∧ (applyWrites m ops).branchHeads = m.branchHeads ∧
    (applyWrites m ops).getFileErr = m.getFileErr := by
  induction ops generalizing m with
  | nil => exact ⟨rfl, rfl, rfl⟩
  | cons op ops ih =>
    obtain ⟨h1, h2, h3⟩ := applyWrite_preserves_reads m op
    obtain ⟨g1, g2, g3⟩ := ih (applyWrite m op)
    exact ⟨g1.trans h1, g2.trans h2, g3.trans h3⟩

theorem applySeed_preserves_writes (m : MockClient) (op : SeedOp) :
    (applySeed m op).updatedFiles = m.updatedFiles ∧
    (applySeed m op).createdBranches = m.createdBranches ∧
    (applySeed m op).createdPullRequests = m.createdPullRequests := by
  cases op with
  | file repo path ref body => simp [applySeed, addFileContents]
  | head repo branchName sha => simp [applySeed, addBranchHead]

theorem applySeeds_preserves_writes (ops : List SeedOp) (m : MockClient) :
    (applySeeds m ops).updatedFiles = m.updatedFiles ∧
    (applySeeds m ops).createdBranches = m.createdBranches ∧
    (applySeeds m ops).createdPullRequests = m.createdPullRequests := by
  induction ops generalizing m with
  | nil => exact ⟨rfl, rfl, rfl⟩
  | cons op ops ih =>
    obtain ⟨h1, h2, h3⟩ := applySeed_preserves_writes m op
    obtain ⟨g1, g2, g3⟩ := ih (applySeed m op)
    exact ⟨g1.trans h1, g2.trans h2, g3.trans h3⟩


theorem hexChars_length (l : Bytes) : (hexChars l).length = 2 * l.length := by
  induction l with
  | nil => rfl
  | cons b t ih =>
    simp [hexChars, ih]
    omega

theorem hexDigitChars_sixteen : hexDigitChars.length = 16 := by decide

theorem hexDigit_mem (n : Nat) : hexDigit n ∈ hexDigitChars := by
  by_cases hn : n < 16
  · interval_cases n <;> decide
  · rw [hexDigit, List.getD_eq_default]
    · decide
    · rw [hexDigitChars_sixteen]
      omega

theorem mem_hexChars (ch : Char) (l : Bytes) (h : ch ∈ hexChars l) : ch ∈ hexDigitChars := by
  induction l with
  | nil => simp [hexChars] at h
  | cons b t ih =>
    simp only [hexChars, List.mem_cons] at h
    rcases h with h | h | h
    · exact h ▸ hexDigit_mem _
    · exact h ▸ hexDigit_mem _
    · exact ih h

theorem sha1Digest_length (msg : Bytes) : (sha1Digest msg).length = 20 := by
  simp [sha1Digest, wordBytes]

theorem bytesSha1_length (b : Bytes) : (bytesSha1 b).length = 40 := by
  simp [bytesSha1, String.length, hexChars_length, sha1Digest_length]

/-- C1: for every seeded tuple (repository, path, reference) with content bytes `c`,
`GetFile(repository, reference, path)` returns exactly `c` together with a revision
identifier equal to `bytesSha1 c` — the lowercase hexadecimal encoding (40 lowercase
hex digits) of the 20-byte SHA-1 digest of `c`, recomputed from the content on each
call — and for a key tuple never seeded, `GetFile` fails with the not-found error. -/
theorem getFile_seeded_returns_content_and_sha (m : MockClient) (repo path ref : String)
    (c : Bytes) (h : m.getFileErr = none) :
    getFile (addFileContents m repo path ref c) repo ref path
      = (some { data := c, sha := bytesSha1 c }, none) ∧
    (mapFind m.files (key [repo, path, ref]) = none →
      getFile m repo ref path = (none, some GoError.notFound)) ∧
    (sha1Digest c).length = 20 ∧ (bytesSha1 c).length = 40 ∧
    ∀ ch ∈ (bytesSha1 c).toList, ch ∈ hexDigitChars := by
  refine ⟨?_, ?_, sha1Digest_length c, bytesSha1_length c, ?_⟩
  · simp [getFile, addFileContents, h, mapFind_insert_self]
  · intro habs
    simp [getFile, h, habs]
  · intro ch hch
    apply mem_hexChars ch (sha1Digest c)
    simpa [bytesSha1, String.toList] using hch

/-- C1 witness: seeding `hello` under `("r", "a.txt", "main")` on a fresh fixture and
reading it back returns the bytes with their SHA-1 hex revision. -/
theorem getFile_seeded_witness :
    mkMockClient.getFileErr = none ∧
    getFile (addFileContents mkMockClient ("r") ("a.txt") ("main") [104, 101, 108, 108, 111])
        ("r") ("main") ("a.txt")
      = (some { data := [104, 101, 108, 108, 111],
                sha := bytesSha1 [104, 101, 108, 108, 111] }, none) :=
  ⟨rfl, (getFile_seeded_returns_content_and_sha mkMockClient ("r") ("a.txt") ("main")
    [104, 101, 108, 108, 111] rfl).1⟩

/-- C2 counterexample: the composite key is the colon-join of the components, so the
distinct tuples `("a:b", "c", "d")` and `("a", "b:c", "d")` share the key `a:b:c:d`,
and seeding a file under the first makes `GetFile` succeed for the second. -/
theorem key_collision_counterexample :
    (("a:b") : String) ≠ ("a") ∧
    key [("a:b"), ("c"), ("d")] = key [("a"), ("b:c"), ("d")] ∧
    getFile (addFileContents mkMockClient ("a:b") ("c") ("d") [1]) ("a") ("d") ("b:c")
      = (some { data := [1], sha := bytesSha1 [1] }, none) :=
  ⟨by decide, by decide, rfl⟩

/-- C2 amended: state-table lookups match exactly on the colon-joined key string
`repository:path:reference`: seeding under one tuple affects `GetFile` on another
tuple exactly when the two joins coincide — never otherwise (no partial or prefix
matching) — but distinct tuples whose components contain the `:` separator can
produce the same join and therefore collide. -/
theorem getFile_exact_joined_key_lookup (m : MockClient) (r1 p1 f1 r2 p2 f2 : String)
    (c : Bytes) (h : m.getFileErr = none) :
    (key [r1, p1, f1] ≠ key [r2, p2, f2] → mapFind m.files (key [r2, p2, f2]) = none →
      getFile (addFileContents m r1 p1 f1 c) r2 f2 p2 = (none, some GoError.notFound)) ∧
    (key [r1, p1, f1] = key [r2, p2, f2] →
      getFile (addFileContents m r1 p1 f1 c) r2 f2 p2
        = (some { data := c, sha := bytesSha1 c }, none)) := by
  constructor
  · intro hne habs
    simp [getFile, addFileContents, h, mapFind_insert_ne _ _ _ _ (Ne.symm hne), habs]
  · intro heq
    simp [getFile, addFileContents, h, ← heq, mapFind_insert_self]

/-- C2 witness: on a fresh fixture, seeding `("r1", "p1", "f1")` leaves
`GetFile("r2", "f2", "p2")` failing with not-found. -/
theorem getFile_exact_joined_key_witness :
    mkMockClient.getFileErr = none ∧
    getFile (addFileContents mkMockClient ("r1") ("p1") ("f1") [7]) ("r2") ("f2") ("p2")
      = (none, some GoError.notFound) :=
  ⟨rfl, (getFile_exact_joined_key_lookup mkMockClient ("r1") ("p1") ("f1") ("r2") ("p2") ("f2")
    [7] rfl).1 (by decide) rfl⟩

/-- C3 counterexample: with every settable override field of the fixture set,
`GetBranchHead` still performs its normal lookup and `DeleteFile` still returns the
unsupported error, so neither operation has an error override. -/
theorem missing_overrides_counterexample :
    getBranchHead (addBranchHead erroringClient ("r") ("b") ("s")) ("r") ("b")
      = (("s"), none) ∧
    (deleteFile erroringClient ("r") ("b") ("p") ("m") ("s")
        { name := ("n"), email := ("e") } []).1 = some GoError.notSupported :=
  ⟨rfl, rfl⟩

/-- C3 amended: `GetFile`, `UpdateFile`, `CreateBranch` and `CreatePullRequest` each
have their own independently settable error override; whenever the override is set,
the operation returns the override value verbatim instead of its normal logic and
mutates no state table. `DeleteFile` and `GetBranchHead` have no override. -/
theorem error_overrides_returned_verbatim (m : MockClient) (e : GoError)
    (repo branch path message previousSHA sha ref : String) (signature : Signature)
    (content : Bytes) (inp : PullRequestInput) :
    (m.getFileErr = some e →
      getFile m repo ref path = (some { data := [], sha := ("") }, some e)) ∧
    (m.updateFileErr = some e →
      updateFile m repo branch path message previousSHA signature content = (some e, m)) ∧
    (m.createBranchErr = some e → createBranch m repo branch sha = (some e, m)) ∧
    (m.createPullRequestErr = some e → createPullRequest m repo inp = ((none, some e), m)) := by
  refine ⟨?_, ?_, ?_, ?_⟩ <;> intro h <;>
    simp [getFile, updateFile, createBranch, createPullRequest, h]

/-- C3 witness: on a fixture with all four overrides set, each of the four operations
returns its own injected error and leaves the state untouched. -/
theorem error_overrides_witness :
    erroringClient.getFileErr = some (GoError.msg ("getfile down")) ∧
    erroringClient.updateFileErr = some (GoError.msg ("updatefile down")) ∧
    getFile erroringClient ("r") ("f") ("p")
      = (some { data := [], sha := ("") }, some (GoError.msg ("getfile down"))) ∧
    updateFile erroringClient ("r") ("b") ("p") ("m") ("s") { name := ("n"), email := ("e") } [1]
      = (some (GoError.msg ("updatefile down")), erroringClient) :=
  ⟨rfl, rfl,
    (error_overrides_returned_verbatim erroringClient (GoError.msg ("getfile down"))
      ("r") ("b") ("p") ("m") ("s") ("sha") ("f") { name := ("n"), email := ("e") } [1]
      { title := ("t"), body := ("bd"), head := ("h"), base := ("ba") }).1 rfl,
    (error_overrides_returned_verbatim erroringClient (GoError.msg ("updatefile down"))
      ("r") ("b") ("p") ("m") ("s") ("sha") ("f") { name := ("n"), email := ("e") } [1]
      { title := ("t"), body := ("bd"), head := ("h"), base := ("ba") }).2.1 rfl⟩

/-- C4: with no override set, `UpdateFile` always succeeds, records the content under
`(repository, path, branch)` overwriting any prior entry whatever `previousSHA` is
(the result does not depend on it), and `GetUpdatedContents` on the same key returns
exactly the last-written content. -/
theorem updateFile_unconditional_overwrite (m : MockClient)
    (repo branch path message previousSHA : String) (signature : Signature) (c : Bytes)
    (h : m.updateFileErr = none) :
    (updateFile m repo branch path message previousSHA signature c).1 = none ∧
    getUpdatedContents (updateFile m repo branch path message previousSHA signature c).2
      repo path branch = c ∧
    (∀ otherSHA, updateFile m repo branch path message otherSHA signature c
      = updateFile m repo branch path message previousSHA signature c) := by
  refine ⟨?_, ?_, ?_⟩
  · simp [updateFile, h]
  · simp [updateFile, h, getUpdatedContents, mapFind_insert_self]
  · intro o
    simp [updateFile, h]

/-- C4 witness: updating `a.txt` on branch `feature` with a deliberately wrong
previous revision still records the bytes of `world`. -/
theorem updateFile_witness :
    mkMockClient.updateFileErr = none ∧
    getUpdatedContents (updateFile mkMockClient ("r") ("feature") ("a.txt") ("msg")
        ("wrongsha") { name := ("n"), email := ("e") } [119, 111, 114, 108, 100]).2
      ("r") ("a.txt") ("feature") = [119, 111, 114, 108, 100] :=
  ⟨rfl, (updateFile_unconditional_overwrite mkMockClient ("r") ("feature") ("a.txt") ("msg")
    ("wrongsha") { name := ("n"), email := ("e") } [119, 111, 114, 108, 100] rfl).2.1⟩

/-- C9: `DeleteFile` fails with the unsupported-operation error for every combination
of arguments and every fixture state, and returns the state unchanged. -/
theorem deleteFile_always_unsupported (m : MockClient)
    (repo branch path message previousSHA : String) (signature : Signature) (c : Bytes) :
    deleteFile m repo branch path message previousSHA signature c
      = (some GoError.notSupported, m) := rfl

/-- C10: `GetUpdatedContents` is total and never fails: on a key no `UpdateFile` call
has recorded, it returns the empty (nil) byte content. -/
theorem getUpdatedContents_total_default (m : MockClient) (repo path ref : String)
    (h : mapFind m.updatedFiles (key [repo, path, ref]) = none) :
    getUpdatedContents m repo path ref = [] := by
  simp [getUpdatedContents, h]

/-- C10 witness: on a fresh fixture, the updated contents of an untouched key are empty. -/
theorem getUpdatedContents_witness :
    mapFind mkMockClient.updatedFiles (key [("r"), ("p"), ("b")]) = none ∧
    getUpdatedContents mkMockClient ("r") ("p") ("b") = [] :=
  ⟨rfl, getUpdatedContents_total_default mkMockClient ("r") ("p") ("b") rfl⟩

theorem runCreatePRs_numbers (inps : List PullRequestInput) (m : MockClient) (repo : String)
    (h : m.createPullRequestErr = none) :
    (runCreatePRs m repo inps).1
      = List.range' (((mapFind m.createdPullRequests repo).getD []).length + 1) inps.length := by
  induction inps generalizing m with
  | nil => simp [runCreatePRs]
  | cons inp rest ih =>
    have hstep : createPullRequest m repo inp
        = ((some { number := ((mapFind m.createdPullRequests repo).getD []).length + 1,
                   link := "https://example.com/pull-request/"
                     ++ toString (((mapFind m.createdPullRequests repo).getD []).length + 1) },
            none),
           { m with createdPullRequests :=
               (mapInsert m.createdPullRequests repo
                 (((mapFind m.createdPullRequests repo).getD []) ++ [inp])) }) := by
      simp [createPullRequest, h]
    simp only [runCreatePRs, hstep]
    rw [ih ({ m with createdPullRequests :=
        (mapInsert m.createdPullRequests repo
          (((mapFind m.createdPullRequests repo).getD []) ++ [inp])) }) h]
    simp [mapFind_insert_self, List.range'_succ]

/-- C5: with no override set, `CreatePullRequest` appends the input and returns the
post-append length of the repository's record as the number, with the templated link
embedding that decimal number, so successive successful calls return the strictly
increasing numbers `n0 + 1, n0 + 2, …` in call order (`1, 2, 3, …` from a fresh
record); and `AssertPullRequestCreated` succeeds exactly when some previously
submitted input for the repository is structurally equal to the given one. -/
theorem createPullRequest_numbers_and_assert (m : MockClient) (repo : String)
    (inp : PullRequestInput) (inps : List PullRequestInput)
    (h : m.createPullRequestErr = none) :
    createPullRequest m repo inp
      = ((some { number := ((mapFind m.createdPullRequests repo).getD []).length + 1,
                 link := "https://example.com/pull-request/"
                   ++ toString (((mapFind m.createdPullRequests repo).getD []).length + 1) },
          none),
         { m with createdPullRequests :=
             (mapInsert m.createdPullRequests repo
               (((mapFind m.createdPullRequests repo).getD []) ++ [inp])) }) ∧
    (runCreatePRs m repo inps).1
      = List.range' (((mapFind m.createdPullRequests repo).getD []).length + 1) inps.length ∧
    (assertPullRequestCreated m repo inp = true ↔
      inp ∈ (mapFind m.createdPullRequests repo).getD []) := by
  refine ⟨?_, runCreatePRs_numbers inps m repo h, ?_⟩
  · simp [createPullRequest, h]
  · unfold assertPullRequestCreated
    rw [List.any_eq_true]
    constructor
    · rintro ⟨x, hx, hdec⟩
      rw [decide_eq_true_eq] at hdec
      exact hdec ▸ hx
    · intro hmem
      exact ⟨inp, hmem, by simp⟩

/-- C5 witness: two successive pull requests on a fresh fixture get the numbers 1 and 2. -/
theorem createPullRequest_witness :
    mkMockClient.createPullRequestErr = none ∧
    (runCreatePRs mkMockClient ("repo")
      [{ title := ("t1"), body := ("b1"), head := ("h1"), base := ("m1") },
       { title := ("t2"), body := ("b2"), head := ("h2"), base := ("m2") }]).1 = [1, 2] :=
  ⟨rfl, (createPullRequest_numbers_and_assert mkMockClient ("repo")
    { title := ("t1"), body := ("b1"), head := ("h1"), base := ("m1") }
    [{ title := ("t1"), body := ("b1"), head := ("h1"), base := ("m1") },
     { title := ("t2"), body := ("b2"), head := ("h2"), base := ("m2") }] rfl).2.1⟩

/-- C6: with no override set, calling `CreateBranch` twice with the same
`(repository, branch, sourceRevision)` returns no error either time and leaves
exactly one recorded entry for that key (the second call changes nothing); after
either call `AssertBranchCreated` succeeds and `RefuteBranchCreated` fails the test. -/
theorem createBranch_idempotent (m : MockClient) (repo branch sha : String)
    (h : m.createBranchErr = none)
    (hwf : countKey m.createdBranches (key [repo, branch, sha]) ≤ 1) :
    (createBranch m repo branch sha).1 = none ∧
    (createBranch (createBranch m repo branch sha).2 repo branch sha).1 = none ∧
    (createBranch (createBranch m repo branch sha).2 repo branch sha).2.createdBranches
      = (createBranch m repo branch sha).2.createdBranches ∧
    countKey (createBranch (createBranch m repo branch sha).2 repo branch sha).2.createdBranches
      (key [repo, branch, sha]) = 1 ∧
    assertBranchCreated (createBranch m repo branch sha).2 repo branch sha = true ∧
    assertBranchCreated (createBranch (createBranch m repo branch sha).2 repo branch sha).2
      repo branch sha = true ∧
    refuteBranchCreated (createBranch m repo branch sha).2 repo branch sha = false ∧
    refuteBranchCreated (createBranch (createBranch m repo branch sha).2 repo branch sha).2
      repo branch sha = false := by
  refine ⟨?_, ?_, ?_, ?_, ?_, ?_, ?_, ?_⟩
  · simp [createBranch, h]
  · simp [createBranch, h]
  · simp [createBranch, h, mapInsert_insert_same]
  · simp [createBranch, h, countKey_insert]
    omega
  · simp [createBranch, h, assertBranchCreated, mapFind_insert_self]
  · simp [createBranch, h, assertBranchCreated, mapInsert_insert_same, mapFind_insert_self]
  · simp [createBranch, h, refuteBranchCreated, mapFind_insert_self]
  · simp [createBranch, h, refuteBranchCreated, mapInsert_insert_same, mapFind_insert_self]

/-- C6 witness: creating the same branch twice on a fresh fixture leaves the assertion
succeeding. -/
theorem createBranch_witness :
    mkMockClient.createBranchErr = none ∧
    countKey mkMockClient.createdBranches (key [("r"), ("b"), ("s")]) ≤ 1 ∧
    assertBranchCreated
      (createBranch (createBranch mkMockClient ("r") ("b") ("s")).2 ("r") ("b") ("s")).2
      ("r") ("b") ("s") = true :=
  ⟨rfl, by decide,
    (createBranch_idempotent mkMockClient ("r") ("b") ("s") rfl (by decide)).2.2.2.2.2.1⟩

/-- C7: `AssertNoInteractions` succeeds on a freshly constructed fixture, and fails as
soon as any single effective (non-overridden) `UpdateFile`, `CreateBranch` or
`CreatePullRequest` call has occurred, while the seeding calls `AddFileContents` and
`AddBranchHead` never change its verdict (and the read calls `GetFile` and
`GetBranchHead` touch no state at all, being pure in this embedding). -/
theorem assertNoInteractions_spec :
    assertNoInteractions mkMockClient = true ∧
    (∀ (m : MockClient) (repo branch path message previousSHA : String)
        (signature : Signature) (c : Bytes), m.updateFileErr = none →
      assertNoInteractions (updateFile m repo branch path message previousSHA signature c).2
        = false) ∧
    (∀ (m : MockClient) (repo branch sha : String), m.createBranchErr = none →
      assertNoInteractions (createBranch m repo branch sha).2 = false) ∧
    (∀ (m : MockClient) (repo : String) (inp : PullRequestInput),
        m.createPullRequestErr = none →
      assertNoInteractions (createPullRequest m repo inp).2 = false) ∧
    (∀ (m : MockClient) (repo path ref : String) (body : Bytes),
      assertNoInteractions (addFileContents m repo path ref body) = assertNoInteractions m) ∧
    (∀ (m : MockClient) (repo branch sha : String),
      assertNoInteractions (addBranchHead m repo branch sha) = assertNoInteractions m) := by
  refine ⟨rfl, ?_, ?_, ?_, ?_, ?_⟩
  · intro m repo branch path message previousSHA signature c h
    have hp : (mapInsert m.updatedFiles (key [repo, path, branch]) c).length ≠ 0 :=
      Nat.pos_iff_ne_zero.mp (mapInsert_length_pos m.updatedFiles (key [repo, path, branch]) c)
    simp [assertNoInteractions, updateFile, h, hp]
  · intro m repo branch sha h
    have hp : (mapInsert m.createdBranches (key [repo, branch, sha]) true).length ≠ 0 :=
      Nat.pos_iff_ne_zero.mp
        (mapInsert_length_pos m.createdBranches (key [repo, branch, sha]) true)
    simp [assertNoInteractions, createBranch, h, hp]
  · intro m repo inp h
    have hp : (mapInsert m.createdPullRequests repo
        (((mapFind m.createdPullRequests repo).getD []) ++ [inp])).length ≠ 0 :=
      Nat.pos_iff_ne_zero.mp (mapInsert_length_pos m.createdPullRequests repo
        (((mapFind m.createdPullRequests repo).getD []) ++ [inp]))
    simp [assertNoInteractions, createPullRequest, h, hp]
  · intro m repo path ref body
    simp [assertNoInteractions, addFileContents]
  · intro m repo branch sha
    simp [assertNoInteractions, addBranchHead]

/-- C7 witness: a single effective `UpdateFile` call on a fresh fixture makes
`AssertNoInteractions` fail. -/
theorem assertNoInteractions_witness :
    mkMockClient.updateFileErr = none ∧
    assertNoInteractions (updateFile mkMockClient ("r") ("b") ("p") ("m") ("s")
      { name := ("n"), email := ("e") } [1]).2 = false :=
  ⟨rfl, assertNoInteractions_spec.2.1 mkMockClient ("r") ("b") ("p") ("m") ("s")
    { name := ("n"), email := ("e") } [1] rfl⟩

/-- C8: read fixtures and write observations live in disjoint tables: no sequence of
`UpdateFile`, `CreateBranch` or `CreatePullRequest` calls changes any `GetFile` or
`GetBranchHead` result, and no sequence of `AddFileContents` or `AddBranchHead`
seeding calls changes `GetUpdatedContents` or any branch-creation or pull-request
assertion. -/
theorem read_write_tables_disjoint (m : MockClient) (ops : List WriteOp)
    (seeds : List SeedOp) (repo ref path branch sha : String) (inp : PullRequestInput) :
    getFile (applyWrites m ops) repo ref path = getFile m repo ref path ∧
    getBranchHead (applyWrites m ops) repo branch = getBranchHead m repo branch ∧
    getUpdatedContents (applySeeds m seeds) repo path branch
      = getUpdatedContents m repo path branch ∧
    assertBranchCreated (applySeeds m seeds) repo branch sha
      = assertBranchCreated m repo branch sha ∧
    refuteBranchCreated (applySeeds m seeds) repo branch sha
      = refuteBranchCreated m repo branch sha ∧
    assertPullRequestCreated (applySeeds m seeds) repo inp
      = assertPullRequestCreated m repo inp ∧
    refutePullRequestCreated (applySeeds m seeds) repo inp
      = refutePullRequestCreated m repo inp ∧
    assertNoBranchesCreated (applySeeds m seeds) = assertNoBranchesCreated m ∧
    assertNoPullRequestsCreated (applySeeds m seeds) = assertNoPullRequestsCreated m := by
  obtain ⟨hf, hb, he⟩ := applyWrites_preserves_reads ops m
  obtain ⟨hu, hcb, hpr⟩ := applySeeds_preserves_writes seeds m
  refine ⟨?_, ?_, ?_, ?_, ?_, ?_, ?_, ?_, ?_⟩
  · simp only [getFile]
    rw [he, hf]
  · simp only [getBranchHead]
    rw [hb]
  · simp only [getUpdatedContents]
    rw [hu]
  · simp only [assertBranchCreated]
    rw [hcb]
  · simp only [refuteBranchCreated]
    rw [hcb]
  · simp only [assertPullRequestCreated]
    rw [hpr]
  · simp only [refutePullRequestCreated]
    rw [hpr]
  · simp only [assertNoBranchesCreated]
    rw [hcb]
  · simp only [assertNoPullRequestsCreated]
    rw [hpr]
